import Mathlib

/-!
Verification development for the `aplos` Go client library
(`Silicon-Ally/aplos`): a shallow embedding of its date codec
(`types.go`), key loader, token source and client operations
(`aplos.go`), together with theorems settling the specification's
claims about them.

Modelling conventions:
* Go `int` and `time.Month` are `Int`; Go `time.Time` values are `Int`
  ticks (nanoseconds), with `0` standing for Go's zero `time.Time`
  (`IsZero`), so that any realistic clock reading is positive.
* Go strings that carry raw bytes (the decrypted token) are `List Nat`
  (byte values); textual strings are Lean `String`s.
* Calls into the standard library and the network are inputs to the
  embedded functions: the body returned by an HTTP GET is an
  `Option String` (`none` = transport error), `encoding/json` decoding
  is a function parameter, and `rsa.DecryptPKCS1v15` with the held
  private key is a function parameter.  `encoding/base64`'s
  `StdEncoding.DecodeString` is embedded concretely below.
-/

/-! ## Date codec (src/types.go) -/

/-- `Date` from `src/types.go`: `Year int`, `Month time.Month`, `Day int`. -/
structure Date where
  year : Int
  month : Int
  day : Int
deriving DecidableEq, Repr

/-- The decimal digit character for `n < 10`, i.e. `'0' + n`. -/
def digChar (n : Nat) : Char := Char.ofNat (48 + n)

/-- Decimal digits of `n`, most significant first, no leading zeros
(fuel-based so that it evaluates by kernel reduction; `natToDigits`
always supplies enough fuel). -/
def natToDigitsAux : Nat → Nat → List Char
  | 0, _ => []
  | fuel + 1, n => if n < 10 then [digChar n] else natToDigitsAux fuel (n / 10) ++ [digChar (n % 10)]

/-- Decimal digit characters of a natural number, as printed by Go's
`%d` verbs for non-negative values. -/
def natToDigits (n : Nat) : List Char := natToDigitsAux (n + 1) n

/-- Left-pad a digit list with `'0'` to width `w`: Go's `%0wd` padding
for a non-negative operand. -/
def goPad (w : Nat) (l : List Char) : List Char := List.replicate (w - l.length) '0' ++ l

/-- Go's `fmt.Sprintf("%0<w>d", v)` for an integer operand: the minus
sign counts toward the width and zero padding goes after it. -/
def sprintf0d (w : Nat) (v : Int) : List Char :=
  if v < 0 then '-' :: goPad (w - 1) (natToDigits v.natAbs) else goPad w (natToDigits v.natAbs)

/-- `Date.String` from `src/types.go`:
`fmt.Sprintf("%04d-%02d-%02d", d.Year, d.Month, d.Day)`. -/
def formatDate (d : Date) : String :=
  String.mk (sprintf0d 4 d.year ++ '-' :: (sprintf0d 2 d.month ++ '-' :: sprintf0d 2 d.day))

/-- Whether a character is an ASCII decimal digit (`'0' <= c && c <= '9'`,
stated on code points). -/
def isDig (c : Char) : Bool := decide (48 ≤ c.toNat) && decide (c.toNat ≤ 57)

/-- Numeric value of an ASCII digit character. -/
def dvalN (c : Char) : Nat := c.toNat - 48

/-- Go `isLeap` (`time` package): `year%4 == 0 && (year%100 != 0 || year%400 == 0)`;
Go's `%` on `int` truncates toward zero, hence `Int.tmod`. -/
def isLeap (y : Int) : Bool :=
  decide (Int.tmod y 4 = 0) && (decide (Int.tmod y 100 ≠ 0) || decide (Int.tmod y 400 = 0))

/-- Go `daysIn(m, year)` (`time` package): days in month `m` of `year`. -/
def daysIn (y m : Int) : Int :=
  if m = 2 then (if isLeap y then 29 else 28)
  else if m = 4 ∨ m = 6 ∨ m = 9 ∨ m = 11 then 30
  else 31

/-- The final range checks of Go's `time.Parse`: month must be in
`1..12` and day in `1..daysIn(month, year)`; on success the parsed
calendar date is returned. -/
def mkParsedDate (y m dd : Nat) : Option Date :=
  if 1 ≤ m ∧ m ≤ 12 ∧ 1 ≤ dd ∧ (dd : Int) ≤ daysIn y m then
    some ⟨(y : Int), (m : Int), (dd : Int)⟩
  else none

/-- Go's `time.Parse("2006-01-02", s)` followed by `.Date()`, on the
character list of `s`: exactly four year digits, a literal dash, two
month digits, a dash, two day digits, nothing after; then the range
checks of `mkParsedDate`. -/
def parseDateChars : List Char → Option Date
  | [a, b, c, d, h1, e, f, h2, g, i] =>
    if isDig a = true ∧ isDig b = true ∧ isDig c = true ∧ isDig d = true ∧ h1 = '-' ∧
       isDig e = true ∧ isDig f = true ∧ h2 = '-' ∧ isDig g = true ∧ isDig i = true then
      mkParsedDate (dvalN a * 1000 + dvalN b * 100 + dvalN c * 10 + dvalN d)
        (dvalN e * 10 + dvalN f) (dvalN g * 10 + dvalN i)
    else none
  | _ => none

/-- `time.Parse("2006-01-02", s)` followed by `.Date()`, as used by
`Date.UnmarshalJSON` in `src/types.go`. -/
def goTimeParseDate (s : String) : Option Date := parseDateChars s.data

/-- A decoded JSON value as seen by `Date.UnmarshalJSON`: the literal
`null`, a JSON string, or anything else (which `json.Unmarshal` into a
`string` rejects). -/
inductive JsonVal where
  | null
  | str (s : String)
  | other
deriving DecidableEq

/-- Error kinds of `Date.UnmarshalJSON`: the field was not a JSON
string, or `time.Parse` failed.  Both are `DecodeError`s in the spec's
taxonomy. -/
inductive DateDecodeErr where
  | notAString
  | parseFailed
deriving DecidableEq

/-- `Date.UnmarshalJSON` from `src/types.go`: a literal `null` returns
`nil` without touching the receiver, a non-string is rejected, and a
string goes through `time.Parse("2006-01-02", ·)`. -/
def dateUnmarshalJSON (data : JsonVal) (cur : Date) : Except DateDecodeErr Date :=
  match data with
  | .null => .ok cur
  | .str s =>
    match goTimeParseDate s with
    | some d => .ok d
    | none => .error .parseFailed
  | .other => .error .notAString

/-! ## Base64 (`encoding/base64` `StdEncoding.DecodeString`, as called
from `src/aplos.go`) -/

/-- Value of a standard-alphabet base64 character. -/
def b64Val (c : Char) : Option Nat :=
  if 'A' ≤ c ∧ c ≤ 'Z' then some (c.toNat - 65)
  else if 'a' ≤ c ∧ c ≤ 'z' then some (c.toNat - 97 + 26)
  else if '0' ≤ c ∧ c ≤ '9' then some (c.toNat - 48 + 52)
  else if c = '+' then some 62
  else if c = '/' then some 63
  else none

/-- Decode base64 four-character groups into bytes; `'='` padding is
allowed only at the end, closing the final group. -/
def b64Groups : List Char → Option (List Nat)
  | [] => some []
  | a :: b :: c :: d :: rest =>
    match b64Val a, b64Val b with
    | some va, some vb =>
      if c = '=' then
        if d = '=' ∧ rest = [] then some [va * 4 + vb / 16] else none
      else
        match b64Val c with
        | some vc =>
          if d = '=' then
            if rest = [] then some [va * 4 + vb / 16, vb % 16 * 16 + vc / 4] else none
          else
            match b64Val d with
            | some vd =>
              match b64Groups rest with
              | some bs => some ((va * 4 + vb / 16) :: (vb % 16 * 16 + vc / 4) :: (vc % 4 * 64 + vd) :: bs)
              | none => none
            | none => none
        | none => none
    | _, _ => none
  | _ => none

/-- Go's `base64.StdEncoding.DecodeString`: newline characters are
ignored, the rest must be padded four-character groups over the
standard alphabet; `none` models a `CorruptInputError`. -/
def base64StdDecode (s : String) : Option (List Nat) :=
  b64Groups (s.data.filter (fun c => c != '\r' && c != '\n'))

/-! ## Key loader (`LoadPrivateKeyFromFile` / `LoadPrivateKey`,
src/aplos.go lines 25-55) -/

/-- An RSA private key, kept abstract: the client never inspects its
components, it only hands the key to `rsa.DecryptPKCS1v15`. -/
structure RSAPrivateKey where
  keyId : Nat
deriving DecidableEq

/-- Result of `x509.ParsePKCS8PrivateKey`: the `any` value it returns
is an `*rsa.PrivateKey`, an `*ecdsa.PrivateKey` or an
`ed25519.PrivateKey`; `LoadPrivateKey` type-switches on it. -/
inductive ParsedPKCS8Key where
  | rsa (k : RSAPrivateKey)
  | ecdsa
  | ed25519
deriving DecidableEq

/-- Error kinds of the key loader, one per `return nil, fmt.Errorf(...)`
site in `src/aplos.go` lines 25-55.  In the spec's taxonomy `ioRead` is
`IOError`, `badBase64` is `DecodeError`, and `notPKCS8` / `notRSA` are
`KeyError`s. -/
inductive KeyLoadErr where
  | ioRead
  | badBase64
  | notPKCS8
  | notRSA
deriving DecidableEq

/-- `LoadPrivateKey` from `src/aplos.go`: parse the bytes as PKCS8
(`parsePKCS8` models `x509.ParsePKCS8PrivateKey`, `none` modelling its
error), then require the decoded key to be of RSA type. -/
def LoadPrivateKey (parsePKCS8 : List Nat → Option ParsedPKCS8Key) (dat : List Nat) :
    Except KeyLoadErr RSAPrivateKey :=
  match parsePKCS8 dat with
  | none => .error .notPKCS8
  | some (.rsa k) => .ok k
  | some _ => .error .notRSA

/-- `LoadPrivateKeyFromFile` from `src/aplos.go`: `readFileResult`
models `os.ReadFile fp` at this call (`none` = read error); its
contents are base64-decoded and passed to `LoadPrivateKey`. -/
def LoadPrivateKeyFromFile (readFileResult : Option String)
    (parsePKCS8 : List Nat → Option ParsedPKCS8Key) : Except KeyLoadErr RSAPrivateKey :=
  match readFileResult with
  | none => .error .ioRead
  | some b64EncDat =>
    match base64StdDecode b64EncDat with
    | none => .error .badBase64
    | some dat => LoadPrivateKey parsePKCS8 dat

/-! ## Token source (`ts.Token` / `newTokenSource` / `New`,
src/aplos.go lines 251-318, and `golang.org/x/oauth2`'s
`reuseTokenSource`, which `newTokenSource` wraps the fetcher in) -/

/-- `authResponseData` from `src/aplos.go`: `Expires Time` (ticks, `0`
for Go's zero time) and the base64 text of the encrypted token. -/
structure AuthResponseData where
  expires : Int
  token : String
deriving DecidableEq

/-- `authResponse` from `src/aplos.go`: the vendor's JSON envelope
around the auth payload. -/
structure AuthResponse where
  version : String
  status : Int
  data : AuthResponseData
deriving DecidableEq

/-- `oauth2.Token` as built by `ts.Token`: the decrypted bytes
(`string(dec)`), the literal token type, and the expiry ticks. -/
structure OAuthToken where
  accessToken : List Nat
  tokenType : String
  expiry : Int
deriving DecidableEq

/-- Error kinds of `ts.Token`, one per failure return in `src/aplos.go`
lines 291-318.  In the spec's taxonomy `network` is `NetworkError`,
`decodeJson` / `decodeBase64` are `DecodeError`s, `crypto` is
`CryptoError`. -/
inductive FetchErr where
  | network
  | decodeJson
  | decodeBase64
  | crypto
deriving DecidableEq

/-- The external world of one `ts.Token` call: the body of
`GET /auth/{clientID}` (`none` = transport error), `encoding/json`
decoding of that body into `authResponse`, and
`rsa.DecryptPKCS1v15(nil, t.key, ·)` (`none` = decryption error). -/
structure FetchEnv where
  transport : Option String
  parseJson : String → Option AuthResponse
  decrypt : List Nat → Option (List Nat)

/-- `ts.Token` from `src/aplos.go` lines 291-318: GET the auth
envelope, JSON-decode it, base64-decode the token blob, decrypt it with
the private key, and wrap the plaintext bytes verbatim as a Bearer
token with the envelope's expiry. -/
def tsToken (env : FetchEnv) : Except FetchErr OAuthToken :=
  match env.transport with
  | none => .error .network
  | some body =>
    match env.parseJson body with
    | none => .error .decodeJson
    | some authResp =>
      match base64StdDecode authResp.data.token with
      | none => .error .decodeBase64
      | some encToken =>
        match env.decrypt encToken with
        | none => .error .crypto
        | some dec => .ok { accessToken := dec, tokenType := "Bearer", expiry := authResp.data.expires }

/-- `defaultExpiryDelta` from `golang.org/x/oauth2/token.go`:
10 seconds, in nanosecond ticks. -/
def defaultExpiryDelta : Int := 10000000000

/-- `Token.expired` from `golang.org/x/oauth2/token.go`: a zero expiry
never expires; otherwise the token counts as expired once the clock
passes `Expiry - defaultExpiryDelta`. -/
def tokenExpired (now : Int) (t : OAuthToken) : Bool :=
  if t.expiry = 0 then false else decide (t.expiry - defaultExpiryDelta < now)

/-- `Token.Valid` from `golang.org/x/oauth2/token.go`: non-empty access
token and not expired. -/
def tokenValid (now : Int) (t : OAuthToken) : Bool :=
  decide (t.accessToken ≠ []) && !tokenExpired now t

instance {ε α : Type} [DecidableEq ε] [DecidableEq α] : DecidableEq (Except ε α) := fun x y =>
  match x, y with
  | .error a, .error b =>
    if h : a = b then .isTrue (h ▸ rfl) else .isFalse fun hh => by cases hh; exact h rfl
  | .ok a, .ok b =>
    if h : a = b then .isTrue (h ▸ rfl) else .isFalse fun hh => by cases hh; exact h rfl
  | .error _, .ok _ => .isFalse fun hh => by cases hh
  | .ok _, .error _ => .isFalse fun hh => by cases hh

/-- One `Token()` call on the provider: what it returned, how many
fetches it issued, and the token it holds afterwards. -/
structure TokenStep where
  outcome : Except FetchErr OAuthToken
  fetches : Nat
  held : OAuthToken
deriving DecidableEq

/-- `reuseTokenSource.Token` from `golang.org/x/oauth2/oauth2.go`, the
wrapper `newTokenSource` installs around `ts`: return the held token if
it is still valid, otherwise issue exactly one fetch and replace the
held token with the result (kept on failure). -/
def reuseGetToken (now : Int) (env : FetchEnv) (held : OAuthToken) : TokenStep :=
  if tokenValid now held then ⟨.ok held, 0, held⟩
  else
    match tsToken env with
    | .error e => ⟨.error e, 1, held⟩
    | .ok t => ⟨.ok t, 1, t⟩

/-- The state `newTokenSource` returns: a `reuseTokenSource` holding
the eagerly fetched first token. -/
structure TokenSourceState where
  held : OAuthToken
deriving DecidableEq

/-- `newTokenSource` from `src/aplos.go` lines 262-269: fetch a first
token eagerly and wrap the fetcher in `oauth2.ReuseTokenSource` seeded
with it; fail if the first fetch fails. -/
def newTokenSource (env : FetchEnv) : Except FetchErr TokenSourceState :=
  match tsToken env with
  | .error e => .error e
  | .ok tkn => .ok ⟨tkn⟩

/-- `Client` from `src/aplos.go`: its HTTP client is the oauth2
transport built around the token source. -/
structure Client where
  ts : TokenSourceState
deriving DecidableEq

/-- The single error kind of `New`: the handshake failed, wrapping the
underlying cause (`fmt.Errorf("failed to get access token: %w", err)`). -/
inductive NewClientErr where
  | authError (cause : FetchErr)
deriving DecidableEq

/-- `New` from `src/aplos.go` lines 251-260: build the token source
(performing the eager first handshake) and wrap it in a client; on
handshake failure return the wrapped error and no client. -/
def New (env : FetchEnv) : Except NewClientErr Client :=
  match newTokenSource env with
  | .error e => .error (.authError e)
  | .ok s => .ok ⟨s⟩

/-! ## Client data model and operations (src/aplos.go lines 57-246) -/

/-- A `float64` carried verbatim (the client never computes with
amounts, it only decodes and returns them); modelled by its bit
pattern. -/
structure GoFloat where
  bits : Nat
deriving DecidableEq

/-- `AccountGroup` from `src/aplos.go`. -/
structure AccountGroup where
  id : Int
  name : String
  seq : Int
deriving DecidableEq

/-- `Account` from `src/aplos.go`. -/
structure Account where
  accountNumber : Int
  name : String
  category : String
  accountGroup : Option AccountGroup
  isEnabled : Bool
  type : String
  activity : String
deriving DecidableEq

/-- `Fund` from `src/aplos.go`. -/
structure Fund where
  id : Int
  name : String
deriving DecidableEq

/-- `TransactionLine` from `src/aplos.go`. -/
structure TransactionLine where
  id : Int
  amount : GoFloat
  account : Account
  fund : Fund
deriving DecidableEq

/-- `Transaction` from `src/aplos.go`; `created` is ticks of the
wrapped `Time`. -/
structure Transaction where
  id : Int
  memo : String
  date : Date
  idNumber : Int
  created : Int
  amount : GoFloat
  inClosedPeriod : Bool
  lines : List TransactionLine
deriving DecidableEq

/-- `getTransactionResponseData` from `src/aplos.go`. -/
structure GetTransactionResponseData where
  transaction : Transaction
deriving DecidableEq

/-- `getTransactionResponse` from `src/aplos.go`: the vendor's
`{version, status, data}` envelope. -/
structure GetTransactionResponse where
  version : String
  status : Int
  data : GetTransactionResponseData
deriving DecidableEq

/-- `listAccountsResponseData` from `src/aplos.go`. -/
structure ListAccountsResponseData where
  accounts : List Account
deriving DecidableEq

/-- `listAccountsResponse` from `src/aplos.go`. -/
structure ListAccountsResponse where
  version : String
  status : Int
  data : ListAccountsResponseData
deriving DecidableEq

/-- `listTransactionsResponseData` from `src/aplos.go`. -/
structure ListTransactionsResponseData where
  transactions : List Transaction
deriving DecidableEq

/-- `listTransactionsResponse` from `src/aplos.go`. -/
structure ListTransactionsResponse where
  version : String
  status : Int
  data : ListTransactionsResponseData
deriving DecidableEq

/-- Error kinds of a client operation: transport failure or a response
body that did not decode into the expected envelope. -/
inductive OpErr where
  | network
  | decode
deriving DecidableEq

/-- `Client.Transaction` from `src/aplos.go` lines 117-130, from the
GET onwards: `transport` is the response body (`none` = transport
error) and `parseJson` models `json.NewDecoder(resp.Body).Decode`; the
envelope's `Data.Transaction` is returned as-is. -/
def clientTransaction (transport : Option String)
    (parseJson : String → Option GetTransactionResponse) : Except OpErr Transaction :=
  match transport with
  | none => .error .network
  | some body =>
    match parseJson body with
    | none => .error .decode
    | some gResp => .ok gResp.data.transaction

/-- `Client.Accounts` from `src/aplos.go` lines 155-178, from the GET
onwards: the envelope's `Data.Accounts` is returned as-is. -/
def clientAccounts (transport : Option String)
    (parseJson : String → Option ListAccountsResponse) : Except OpErr (List Account) :=
  match transport with
  | none => .error .network
  | some body =>
    match parseJson body with
    | none => .error .decode
    | some lResp => .ok lResp.data.accounts

/-- `Client.Transactions` from `src/aplos.go` lines 217-246, from the
GET onwards: the envelope's `Data.Transactions` is returned as-is. -/
def clientTransactions (transport : Option String)
    (parseJson : String → Option ListTransactionsResponse) : Except OpErr (List Transaction) :=
  match transport with
  | none => .error .network
  | some body =>
    match parseJson body with
    | none => .error .decode
    | some lResp => .ok lResp.data.transactions

/-! ## Transaction list filters (src/aplos.go lines 190-234) -/

/-- `listTransactionsOpts` from `src/aplos.go`: the three optional
filters. -/
structure ListTransactionsOpts where
  accountNumber : Option Int
  rangeStart : Option Date
  rangeEnd : Option Date
deriving DecidableEq

/-- `ListTransactionOption`, a functional option mutating the opts
struct. -/
def ListTransactionOption := ListTransactionsOpts → ListTransactionsOpts

/-- `WithAccountNumber` from `src/aplos.go`. -/
def WithAccountNumber (acctNumber : Int) : ListTransactionOption :=
  fun o => { o with accountNumber := some acctNumber }

/-- `WithRangeStart` from `src/aplos.go`. -/
def WithRangeStart (year month day : Int) : ListTransactionOption :=
  fun o => { o with rangeStart := some ⟨year, month, day⟩ }

/-- `WithRangeEnd` from `src/aplos.go`. -/
def WithRangeEnd (year month day : Int) : ListTransactionOption :=
  fun o => { o with rangeEnd := some ⟨year, month, day⟩ }

/-- The option-application loop at the top of `Client.Transactions`:
start from the zero `listTransactionsOpts` and apply each option in
order. -/
def resolveTransactionOpts (opts : List ListTransactionOption) : ListTransactionsOpts :=
  opts.foldl (fun o f => f o) ⟨none, none, none⟩

/-- Go's `strconv.Itoa`. -/
def goItoa (n : Int) : String :=
  String.mk (if n < 0 then '-' :: natToDigits n.natAbs else natToDigits n.natAbs)

/-- The `url.Values` built by `Client.Transactions` (src/aplos.go lines
223-232), as the list of `q.Add` calls in program order: one
`f_accountnumber` parameter via `strconv.Itoa` if the account filter is
present, one `f_rangestart` and one `f_rangeend` via `Date.String` if
the range filters are present. -/
def transactionsQueryValues (o : ListTransactionsOpts) : List (String × String) :=
  (match o.accountNumber with
   | some n => [("f_accountnumber", goItoa n)]
   | none => [])
  ++ (match o.rangeStart with
      | some d => [("f_rangestart", formatDate d)]
      | none => [])
  ++ (match o.rangeEnd with
      | some d => [("f_rangeend", formatDate d)]
      | none => [])

/-- How many times key `k` appears among the query parameters. -/
def countKey (l : List (String × String)) (k : String) : Nat :=
  (l.filter (fun p => p.1 == k)).length

/-! ## Decimal digit lemmas -/

lemma natToDigitsAux_extra : ∀ (f g n : Nat), n < f → n < g → natToDigitsAux f n = natToDigitsAux g n := by
  intro f
  induction f with
  | zero => intro g n h _; omega
  | succ f ih =>
    intro g n hf hg
    cases g with
    | zero => omega
    | succ g =>
      simp only [natToDigitsAux]
      split
      · rfl
      · rw [ih g (n / 10) (by omega) (by omega)]

lemma natToDigits_eq (n : Nat) :
    natToDigits n = if n < 10 then [digChar n] else natToDigits (n / 10) ++ [digChar (n % 10)] := by
  show natToDigitsAux (n + 1) n = _
  simp only [natToDigitsAux]
  split
  · rfl
  · rw [natToDigitsAux_extra n (n / 10 + 1) (n / 10) (by omega) (by omega)]
    rfl

lemma natToDigits_lt10 {n : Nat} (h : n < 10) : natToDigits n = [digChar n] := by
  rw [natToDigits_eq, if_pos h]

lemma natToDigits_lt100 {n : Nat} (h1 : 10 ≤ n) (h2 : n < 100) :
    natToDigits n = [digChar (n / 10), digChar (n % 10)] := by
  rw [natToDigits_eq, if_neg (by omega), natToDigits_lt10 (by omega)]
  rfl

lemma natToDigits_lt1000 {n : Nat} (h1 : 100 ≤ n) (h2 : n < 1000) :
    natToDigits n = [digChar (n / 100), digChar (n / 10 % 10), digChar (n % 10)] := by
  rw [natToDigits_eq, if_neg (by omega), natToDigits_lt100 (by omega) (by omega)]
  have e1 : n / 10 / 10 = n / 100 := by omega
  rw [e1]
  rfl

lemma natToDigits_lt10000 {n : Nat} (h1 : 1000 ≤ n) (h2 : n < 10000) :
    natToDigits n =
      [digChar (n / 1000), digChar (n / 100 % 10), digChar (n / 10 % 10), digChar (n % 10)] := by
  rw [natToDigits_eq, if_neg (by omega), natToDigits_lt1000 (by omega) (by omega)]
  have e1 : n / 10 / 100 = n / 1000 := by omega
  have e2 : n / 10 / 10 % 10 = n / 100 % 10 := by omega
  have e3 : n / 10 % 10 = n / 10 % 10 := rfl
  rw [e1, e2]
  rfl

lemma isDig_digChar {k : Nat} (h : k < 10) : isDig (digChar k) = true := by
  interval_cases k <;> decide

lemma dvalN_digChar {k : Nat} (h : k < 10) : dvalN (digChar k) = k := by
  interval_cases k <;> decide

lemma isDig_toNat {c : Char} (h : isDig c = true) : 48 ≤ c.toNat ∧ c.toNat ≤ 57 := by
  unfold isDig at h
  simp only [Bool.and_eq_true, decide_eq_true_eq] at h
  exact h

lemma dvalN_le {c : Char} (h : isDig c = true) : dvalN c ≤ 9 := by
  have := isDig_toNat h
  unfold dvalN
  omega

lemma digChar_dvalN {c : Char} (h : isDig c = true) : digChar (dvalN c) = c := by
  have hb := isDig_toNat h
  unfold digChar dvalN
  have e : 48 + (c.toNat - 48) = c.toNat := by omega
  rw [e, Char.ofNat_toNat]

lemma pad4_eq {n : Nat} (h : n ≤ 9999) :
    goPad 4 (natToDigits n) =
      [digChar (n / 1000), digChar (n / 100 % 10), digChar (n / 10 % 10), digChar (n % 10)] := by
  have hz : digChar 0 = '0' := by decide
  rcases Nat.lt_or_ge n 10 with h1 | h1
  · rw [natToDigits_lt10 h1]
    have e1 : n / 1000 = 0 := by omega
    have e2 : n / 100 % 10 = 0 := by omega
    have e3 : n / 10 % 10 = 0 := by omega
    have e4 : n % 10 = n := by omega
    rw [e1, e2, e3, e4, hz]
    rfl
  rcases Nat.lt_or_ge n 100 with h2 | h2
  · rw [natToDigits_lt100 h1 h2]
    have e1 : n / 1000 = 0 := by omega
    have e2 : n / 100 % 10 = 0 := by omega
    have e3 : n / 10 % 10 = n / 10 := by omega
    rw [e1, e2, e3, hz]
    rfl
  rcases Nat.lt_or_ge n 1000 with h3 | h3
  · rw [natToDigits_lt1000 h2 h3]
    have e1 : n / 1000 = 0 := by omega
    have e2 : n / 100 % 10 = n / 100 := by omega
    rw [e1, e2, hz]
    rfl
  · rw [natToDigits_lt10000 h3 (by omega)]
    rfl

lemma pad2_eq {n : Nat} (h : n ≤ 99) :
    goPad 2 (natToDigits n) = [digChar (n / 10), digChar (n % 10)] := by
  have hz : digChar 0 = '0' := by decide
  rcases Nat.lt_or_ge n 10 with h1 | h1
  · rw [natToDigits_lt10 h1]
    have e1 : n / 10 = 0 := by omega
    have e2 : n % 10 = n := by omega
    rw [e1, e2, hz]
    rfl
  · rw [natToDigits_lt100 h1 (by omega)]
    rfl

lemma sprintf0d_nonneg {w : Nat} {v : Int} (h : 0 ≤ v) :
    sprintf0d w v = goPad w (natToDigits v.natAbs) := by
  unfold sprintf0d
  rw [if_neg (by omega)]

lemma daysIn_le_31 (y m : Int) : daysIn y m ≤ 31 := by
  unfold daysIn
  split_ifs <;> omega

/-! ## Round-trip and soundness of the date codec -/

/-- A real calendar date (per the code's own `daysIn` ranges) whose
year is representable in the four digits `formatDate` prints and
`time.Parse`'s `2006` layout reads. -/
def validDate4 (d : Date) : Prop :=
  0 ≤ d.year ∧ d.year ≤ 9999 ∧ 1 ≤ d.month ∧ d.month ≤ 12 ∧
    1 ≤ d.day ∧ d.day ≤ daysIn d.year d.month

instance (d : Date) : Decidable (validDate4 d) := by
  unfold validDate4
  infer_instance

lemma formatDate_data (d : Date) :
    (formatDate d).data =
      sprintf0d 4 d.year ++ '-' :: (sprintf0d 2 d.month ++ '-' :: sprintf0d 2 d.day) := rfl

lemma parse_format_roundtrip {d : Date} (h : validDate4 d) :
    parseDateChars (formatDate d).data = some d := by
  obtain ⟨hy0, hy1, hm0, hm1, hd0, hd1⟩ := h
  have hdays := daysIn_le_31 d.year d.month
  obtain ⟨y, m, dd⟩ := d
  simp only at hy0 hy1 hm0 hm1 hd0 hd1 hdays
  have hyc : ((y.natAbs : Int)) = y := Int.natAbs_of_nonneg hy0
  have hmc : ((m.natAbs : Int)) = m := Int.natAbs_of_nonneg (by omega)
  have hdc : ((dd.natAbs : Int)) = dd := Int.natAbs_of_nonneg (by omega)
  have hyn : y.natAbs ≤ 9999 := by omega
  have hmn : m.natAbs ≤ 99 := by omega
  have hdn : dd.natAbs ≤ 99 := by omega
  rw [formatDate_data]
  simp only
  rw [sprintf0d_nonneg hy0, sprintf0d_nonneg (by omega), sprintf0d_nonneg (by omega),
    pad4_eq hyn, pad2_eq hmn, pad2_eq hdn]
  simp only [List.cons_append, List.nil_append, parseDateChars]
  rw [if_pos ⟨isDig_digChar (by omega), isDig_digChar (by omega), isDig_digChar (by omega),
    isDig_digChar (by omega), trivial, isDig_digChar (by omega), isDig_digChar (by omega),
    trivial, isDig_digChar (by omega), isDig_digChar (by omega)⟩]
  rw [dvalN_digChar (by omega), dvalN_digChar (by omega), dvalN_digChar (by omega),
    dvalN_digChar (by omega), dvalN_digChar (by omega), dvalN_digChar (by omega),
    dvalN_digChar (by omega), dvalN_digChar (by omega)]
  have eY : y.natAbs / 1000 * 1000 + y.natAbs / 100 % 10 * 100 + y.natAbs / 10 % 10 * 10 +
      y.natAbs % 10 = y.natAbs := by omega
  have eM : m.natAbs / 10 * 10 + m.natAbs % 10 = m.natAbs := by omega
  have eD : dd.natAbs / 10 * 10 + dd.natAbs % 10 = dd.natAbs := by omega
  rw [eY, eM, eD]
  unfold mkParsedDate
  rw [if_pos ⟨by omega, by omega, by omega, by rw [hyc, hmc, hdc]; exact hd1⟩]
  rw [hyc, hmc, hdc]

lemma parse_sound {l : List Char} {d : Date} (h : parseDateChars l = some d) :
    validDate4 d ∧ l = (formatDate d).data := by
  match l with
  | [a, b, c, d0, h1, e, f, h2, g, i] =>
    simp only [parseDateChars] at h
    by_cases hc : isDig a = true ∧ isDig b = true ∧ isDig c = true ∧ isDig d0 = true ∧
        h1 = '-' ∧ isDig e = true ∧ isDig f = true ∧ h2 = '-' ∧ isDig g = true ∧ isDig i = true
    · rw [if_pos hc] at h
      obtain ⟨ha, hb, hcc, hd0, hh1, he, hf, hh2, hg, hi⟩ := hc
      have hva := dvalN_le ha
      have hvb := dvalN_le hb
      have hvc := dvalN_le hcc
      have hvd := dvalN_le hd0
      have hve := dvalN_le he
      have hvf := dvalN_le hf
      have hvg := dvalN_le hg
      have hvi := dvalN_le hi
      unfold mkParsedDate at h
      by_cases hr : 1 ≤ dvalN e * 10 + dvalN f ∧ dvalN e * 10 + dvalN f ≤ 12 ∧
          1 ≤ dvalN g * 10 + dvalN i ∧
          ((dvalN g * 10 + dvalN i : Nat) : Int) ≤
            daysIn ((dvalN a * 1000 + dvalN b * 100 + dvalN c * 10 + dvalN d0 : Nat))
              ((dvalN e * 10 + dvalN f : Nat))
      · rw [if_pos hr] at h
        obtain ⟨hr1, hr2, hr3, hr4⟩ := hr
        have hd' := Option.some.inj h
        subst hd'
        have hY9 : dvalN a * 1000 + dvalN b * 100 + dvalN c * 10 + dvalN d0 ≤ 9999 := by omega
        constructor
        · unfold validDate4
          dsimp only
          exact ⟨Int.natCast_nonneg _, by exact_mod_cast hY9, by exact_mod_cast hr1,
            by exact_mod_cast hr2, by exact_mod_cast hr3, hr4⟩
        · rw [formatDate_data]
          simp only
          rw [sprintf0d_nonneg (by positivity), sprintf0d_nonneg (by positivity),
            sprintf0d_nonneg (by positivity)]
          rw [Int.natAbs_ofNat, Int.natAbs_ofNat, Int.natAbs_ofNat]
          rw [pad4_eq (by omega), pad2_eq (by omega), pad2_eq (by omega)]
          have eA : (dvalN a * 1000 + dvalN b * 100 + dvalN c * 10 + dvalN d0) / 1000 =
              dvalN a := by omega
          have eB : (dvalN a * 1000 + dvalN b * 100 + dvalN c * 10 + dvalN d0) / 100 % 10 =
              dvalN b := by omega
          have eC : (dvalN a * 1000 + dvalN b * 100 + dvalN c * 10 + dvalN d0) / 10 % 10 =
              dvalN c := by omega
          have eD0 : (dvalN a * 1000 + dvalN b * 100 + dvalN c * 10 + dvalN d0) % 10 =
              dvalN d0 := by omega
          have eE : (dvalN e * 10 + dvalN f) / 10 = dvalN e := by omega
          have eF : (dvalN e * 10 + dvalN f) % 10 = dvalN f := by omega
          have eG : (dvalN g * 10 + dvalN i) / 10 = dvalN g := by omega
          have eI : (dvalN g * 10 + dvalN i) % 10 = dvalN i := by omega
          rw [eA, eB, eC, eD0, eE, eF, eG, eI]
          rw [digChar_dvalN ha, digChar_dvalN hb, digChar_dvalN hcc, digChar_dvalN hd0,
            digChar_dvalN he, digChar_dvalN hf, digChar_dvalN hg, digChar_dvalN hi]
          rw [hh1, hh2]
          rfl
      · rw [if_neg hr] at h
        exact Option.noConfusion h
    · rw [if_neg hc] at h
      exact Option.noConfusion h
  | [] => exact Option.noConfusion h
  | [x1] => exact Option.noConfusion h
  | [x1, x2] => exact Option.noConfusion h
  | [x1, x2, x3] => exact Option.noConfusion h
  | [x1, x2, x3, x4] => exact Option.noConfusion h
  | [x1, x2, x3, x4, x5] => exact Option.noConfusion h
  | [x1, x2, x3, x4, x5, x6] => exact Option.noConfusion h
  | [x1, x2, x3, x4, x5, x6, x7] => exact Option.noConfusion h
  | [x1, x2, x3, x4, x5, x6, x7, x8] => exact Option.noConfusion h
  | [x1, x2, x3, x4, x5, x6, x7, x8, x9] => exact Option.noConfusion h
  | x1 :: x2 :: x3 :: x4 :: x5 :: x6 :: x7 :: x8 :: x9 :: x10 :: x11 :: rest =>
    exact Option.noConfusion h

lemma natToDigits_all (n : Nat) : (natToDigits n).all isDig = true := by
  induction n using Nat.strong_induction_on with
  | _ n ih =>
    rw [natToDigits_eq]
    split
    · rename_i h
      simp [isDig_digChar h]
    · rename_i h
      rw [List.all_append]
      rw [ih (n / 10) (by omega)]
      simp [isDig_digChar (show n % 10 < 10 by omega)]

lemma natToDigits_length_pos (n : Nat) : 1 ≤ (natToDigits n).length := by
  rw [natToDigits_eq]
  split
  · simp
  · simp

/-- The padded form `YYYY-MM-DD`: at least four year digit characters,
a dash, exactly two month digits, a dash, exactly two day digits. -/
def PaddedDateShape (l : List Char) : Prop :=
  ∃ ys m1 m0 d1 d0, l = ys ++ '-' :: (m1 :: m0 :: '-' :: d1 :: d0 :: []) ∧
    4 ≤ ys.length ∧ ys.all isDig = true ∧
    isDig m1 = true ∧ isDig m0 = true ∧ isDig d1 = true ∧ isDig d0 = true

lemma formatDate_shape {d : Date} (hy : 0 ≤ d.year) (hm0 : 1 ≤ d.month) (hm1 : d.month ≤ 12)
    (hd0 : 1 ≤ d.day) (hd1 : d.day ≤ 31) : PaddedDateShape (formatDate d).data := by
  obtain ⟨y, m, dd⟩ := d
  simp only at hy hm0 hm1 hd0 hd1
  rw [formatDate_data]
  simp only
  rw [sprintf0d_nonneg hy, sprintf0d_nonneg (by omega), sprintf0d_nonneg (by omega),
    pad2_eq (show m.natAbs ≤ 99 by omega), pad2_eq (show dd.natAbs ≤ 99 by omega)]
  refine ⟨goPad 4 (natToDigits y.natAbs), digChar (m.natAbs / 10), digChar (m.natAbs % 10),
    digChar (dd.natAbs / 10), digChar (dd.natAbs % 10), rfl, ?_, ?_,
    isDig_digChar (by omega), isDig_digChar (by omega),
    isDig_digChar (by omega), isDig_digChar (by omega)⟩
  · unfold goPad
    rw [List.length_append, List.length_replicate]
    have := natToDigits_length_pos y.natAbs
    omega
  · unfold goPad
    rw [List.all_append]
    have h1 : (List.replicate (4 - (natToDigits y.natAbs).length) '0').all isDig = true := by
      rw [List.all_eq_true]
      intro c hc
      rw [List.eq_of_mem_replicate hc]
      decide
    rw [h1, natToDigits_all]
    rfl

/-! ## Claims about the date codec -/

/-- Claim C4, counterexample: the year-10000 calendar date 10000-01-01
is a real calendar date (month and day in range), `formatDate` prints
it with a five-digit year, and `parseDate` (which reads exactly four
year digits) rejects that string, so
`parseDate(formatDate(d)) == d` fails for it. -/
theorem claim_C4_counterexample :
    (1 : Int) ≤ 1 ∧ (1 : Int) ≤ 12 ∧ (1 : Int) ≤ daysIn 10000 1 ∧
    formatDate ⟨10000, 1, 1⟩ = ("10000-01-01") ∧
    goTimeParseDate (formatDate ⟨10000, 1, 1⟩) = none ∧
    goTimeParseDate (formatDate ⟨10000, 1, 1⟩) ≠ some ⟨10000, 1, 1⟩ := by
  decide

/-- Claim C4 (amended): for every real calendar date `d` whose year
also fits the four digits that `formatDate` pads to and `parseDate`
reads (`0 ≤ year ≤ 9999`), parsing the string produced by `formatDate`
yields `d` back, both at the `time.Parse` level and through
`Date.UnmarshalJSON`. -/
theorem claim_C4_amended (d : Date) (cur : Date) (h : validDate4 d) :
    goTimeParseDate (formatDate d) = some d ∧
    dateUnmarshalJSON (.str (formatDate d)) cur = .ok d := by
  have hr : goTimeParseDate (formatDate d) = some d := parse_format_roundtrip h
  refine ⟨hr, ?_⟩
  simp only [dateUnmarshalJSON, hr]

/-- Claim C4, witness: the amended round trip at the concrete leap-day
date 2020-02-29. -/
theorem claim_C4_witness :
    goTimeParseDate (formatDate ⟨2020, 2, 29⟩) = some ⟨2020, 2, 29⟩ ∧
    dateUnmarshalJSON (.str (formatDate ⟨2020, 2, 29⟩)) ⟨0, 0, 0⟩ = .ok ⟨2020, 2, 29⟩ :=
  claim_C4_amended ⟨2020, 2, 29⟩ ⟨0, 0, 0⟩ (by decide)

/-- Claim C5: `parseDate` accepts exactly the strings that are the
`YYYY-MM-DD` rendering of a real calendar date with a four-digit year;
any other string fails (in particular `"not-a-date"`, whose failure
`Date.UnmarshalJSON` reports as a decode error), and a literal JSON
`null` is a no-op that leaves the target date unchanged. -/
theorem claim_C5 (s : String) (cur : Date) :
    ((goTimeParseDate s).isSome ↔ ∃ d : Date, validDate4 d ∧ s = formatDate d) ∧
    goTimeParseDate ("not-a-date") = none ∧
    dateUnmarshalJSON (.str ("not-a-date")) cur = .error .parseFailed ∧
    dateUnmarshalJSON .null cur = .ok cur := by
  refine ⟨⟨?_, ?_⟩, by decide, rfl, rfl⟩
  · intro h
    cases hp : goTimeParseDate s with
    | none => rw [hp] at h; exact Bool.noConfusion h
    | some d =>
      have hs := parse_sound (l := s.data) (d := d) hp
      exact ⟨d, hs.1, String.ext hs.2⟩
  · rintro ⟨d, hv, rfl⟩
    unfold goTimeParseDate
    rw [parse_format_roundtrip hv]
    rfl

/-- Claim C5, witness: the acceptance criterion at the concrete strings
`"1999-12-31"` (accepted) and `"not-a-date"` (rejected). -/
theorem claim_C5_witness :
    (goTimeParseDate ("1999-12-31")).isSome = true ∧
    goTimeParseDate ("not-a-date") = none := by
  refine ⟨?_, (claim_C5 ("1999-12-31") ⟨0, 0, 0⟩).2.1⟩
  exact (claim_C5 ("1999-12-31") ⟨0, 0, 0⟩).1.mpr ⟨⟨1999, 12, 31⟩, by decide, by decide⟩

/-- Claim C9: for every calendar date (year at least 0, month 1..12,
day 1..31) `formatDate` produces the `YYYY-MM-DD` form — at least four
year digits (zero-padded), a dash, exactly two month digits, a dash,
exactly two day digits — and on the three concrete examples it produces
exactly the expected strings. -/
theorem claim_C9 (d : Date) (hy : 0 ≤ d.year) (hm0 : 1 ≤ d.month) (hm1 : d.month ≤ 12)
    (hd0 : 1 ≤ d.day) (hd1 : d.day ≤ 31) :
    PaddedDateShape (formatDate d).data ∧
    formatDate ⟨999, 12, 31⟩ = ("0999-12-31") ∧
    formatDate ⟨2020, 1, 2⟩ = ("2020-01-02") ∧
    formatDate ⟨1993, 10, 10⟩ = ("1993-10-10") :=
  ⟨formatDate_shape hy hm0 hm1 hd0 hd1, by decide, by decide, by decide⟩

/-- Claim C9, witness: the padded shape at the concrete date
12020-06-15, whose year needs more than four digits. -/
theorem claim_C9_witness : PaddedDateShape (formatDate ⟨12020, 6, 15⟩).data :=
  (claim_C9 ⟨12020, 6, 15⟩ (by decide) (by decide) (by decide) (by decide) (by decide)).1

/-! ## Claims about the token provider -/

/-- A fetch environment in which the transport fails. -/
def failEnv : FetchEnv :=
  { transport := none
  , parseJson := fun _ => none
  , decrypt := fun _ => none }

/-- A fetch environment in which the whole handshake succeeds: the
envelope carries expiry tick 1234 and blob `aGk=` (bytes `hi`), which
decrypts to the bytes `tok`. -/
def okFetchEnv : FetchEnv :=
  { transport := some ("body")
  , parseJson := fun _ => some ⟨"v1", 0, ⟨1234, "aGk="⟩⟩
  , decrypt := fun blob => if blob = [104, 105] then some [116, 111, 107] else none }

/-- Claim C2: `ts.Token` base64-decodes the envelope's blob, decrypts
it with the private key, and uses the plaintext bytes verbatim as the
access token paired with the envelope's expiry; it fails with the
network error on transport failure, a decode error on malformed JSON or
base64, and the crypto error on decryption failure, returning no token
in each failure case. -/
theorem claim_C2 (env : FetchEnv) :
    (env.transport = none → tsToken env = .error .network) ∧
    (∀ body, env.transport = some body → env.parseJson body = none →
      tsToken env = .error .decodeJson) ∧
    (∀ body resp, env.transport = some body → env.parseJson body = some resp →
      base64StdDecode resp.data.token = none → tsToken env = .error .decodeBase64) ∧
    (∀ body resp blob, env.transport = some body → env.parseJson body = some resp →
      base64StdDecode resp.data.token = some blob → env.decrypt blob = none →
      tsToken env = .error .crypto) ∧
    (∀ body resp blob dec, env.transport = some body → env.parseJson body = some resp →
      base64StdDecode resp.data.token = some blob → env.decrypt blob = some dec →
      tsToken env = .ok ⟨dec, "Bearer", resp.data.expires⟩) := by
  refine ⟨?_, ?_, ?_, ?_, ?_⟩
  · intro h1
    simp only [tsToken, h1]
  · intro body h1 h2
    simp only [tsToken, h1, h2]
  · intro body resp h1 h2 h3
    simp only [tsToken, h1, h2, h3]
  · intro body resp blob h1 h2 h3 h4
    simp only [tsToken, h1, h2, h3, h4]
  · intro body resp blob dec h1 h2 h3 h4
    simp only [tsToken, h1, h2, h3, h4]

/-- Claim C2, witness: the full pipeline on a concrete successful
environment, and the network error on a concrete failing one. -/
theorem claim_C2_witness :
    tsToken okFetchEnv = .ok ⟨[116, 111, 107], "Bearer", 1234⟩ ∧
    tsToken failEnv = .error .network := by
  constructor
  · exact (claim_C2 okFetchEnv).2.2.2.2 ("body") ⟨"v1", 0, ⟨1234, "aGk="⟩⟩ [104, 105]
      [116, 111, 107] rfl rfl (by decide) (by decide)
  · exact (claim_C2 failEnv).1 rfl

/-- The environment for the C1 counterexample: a successful handshake
whose envelope carries the already-elapsed expiry tick 1 and whose blob
decrypts to the empty byte string (a valid PKCS1v15 plaintext). -/
def c1CexEnv : FetchEnv :=
  { transport := some ("body")
  , parseJson := fun _ => some ⟨"v1", 200, ⟨1, ""⟩⟩
  , decrypt := fun _ => some [] }

/-- Claim C1, counterexample: the handshake fetch returns a token with
an empty access token and expiry tick 1, and the provider constructor
seeds itself with it; at return tick 1000 that expiry is not in the
future, and the access token is empty at any tick, so the claimed
invariant fails on fetched tokens. -/
theorem claim_C1_counterexample :
    tsToken c1CexEnv = .ok ⟨[], "Bearer", 1⟩ ∧
    newTokenSource c1CexEnv = .ok ⟨⟨[], "Bearer", 1⟩⟩ ∧
    ¬ ((1000 : Int) < 1) := by
  refine ⟨by decide, by decide, by decide⟩

/-- Claim C1 (amended): the invariant holds on the reuse path — when a
`getToken` call issues no fetch, the token it returns is the held one,
its access token is non-empty, and its expiry is either zero (Go's
zero time, treated by the oauth2 wrapper as "never expires") or
strictly in the future.  A token coming straight out of a fetch (the
initial handshake or a refresh) is handed back unvalidated and may
violate the invariant. -/
theorem claim_C1_amended (now : Int) (env : FetchEnv) (held : OAuthToken)
    (h : (reuseGetToken now env held).fetches = 0) :
    (reuseGetToken now env held).outcome = .ok held ∧
    held.accessToken ≠ [] ∧ (held.expiry = 0 ∨ now < held.expiry) := by
  by_cases hv : tokenValid now held = true
  · unfold reuseGetToken
    rw [if_pos hv]
    unfold tokenValid at hv
    rw [Bool.and_eq_true, decide_eq_true_eq, Bool.not_eq_true'] at hv
    obtain ⟨hne, hexp⟩ := hv
    refine ⟨rfl, hne, ?_⟩
    unfold tokenExpired at hexp
    by_cases hz : held.expiry = 0
    · exact Or.inl hz
    · rw [if_neg hz, decide_eq_false_iff_not] at hexp
      right
      unfold defaultExpiryDelta at hexp
      omega
  · exfalso
    unfold reuseGetToken at h
    rw [if_neg hv] at h
    cases htk : tsToken env with
    | error e => rw [htk] at h; simp at h
    | ok t => rw [htk] at h; simp at h

/-- Claim C1, witness: a reuse-path call at tick 100 on a held token
with expiry tick 20000000000. -/
theorem claim_C1_witness :
    (reuseGetToken 100 failEnv ⟨[120], "Bearer", 20000000000⟩).outcome =
      .ok ⟨[120], "Bearer", 20000000000⟩ ∧
    (⟨[120], "Bearer", 20000000000⟩ : OAuthToken).accessToken ≠ [] ∧
    ((⟨[120], "Bearer", 20000000000⟩ : OAuthToken).expiry = 0 ∨
      (100 : Int) < (⟨[120], "Bearer", 20000000000⟩ : OAuthToken).expiry) :=
  claim_C1_amended 100 failEnv ⟨[120], "Bearer", 20000000000⟩ (by decide)

/-- Claim C3, counterexample: a held token whose expiry (tick
5000000100) is in the future at tick 100, yet `getToken` issues a fetch
(the oauth2 wrapper already treats tokens within its 10-second
`defaultExpiryDelta` of expiry as expired) and does not return the held
token. -/
theorem claim_C3_counterexample :
    (100 : Int) < (⟨[120], "Bearer", 5000000100⟩ : OAuthToken).expiry ∧
    (reuseGetToken 100 failEnv ⟨[120], "Bearer", 5000000100⟩).fetches = 1 ∧
    (reuseGetToken 100 failEnv ⟨[120], "Bearer", 5000000100⟩).outcome ≠
      .ok ⟨[120], "Bearer", 5000000100⟩ := by
  refine ⟨by decide, by decide, by decide⟩

/-- Claim C3 (amended): `getToken` returns the held token with no
network request exactly when the held token is valid in the oauth2
sense — non-empty access token and expiry zero or more than the
10-second `defaultExpiryDelta` away; otherwise it issues exactly one
fetch, and either replaces the held token with the fetched one and
returns it, or keeps the held token and propagates the fetch error. -/
theorem claim_C3_amended (now : Int) (env : FetchEnv) (held : OAuthToken) :
    (tokenValid now held = true →
      reuseGetToken now env held = ⟨.ok held, 0, held⟩) ∧
    (tokenValid now held = false →
      (reuseGetToken now env held).fetches = 1 ∧
      (∀ t, tsToken env = .ok t → reuseGetToken now env held = ⟨.ok t, 1, t⟩) ∧
      (∀ e, tsToken env = .error e → reuseGetToken now env held = ⟨.error e, 1, held⟩)) := by
  constructor
  · intro hv
    unfold reuseGetToken
    rw [if_pos hv]
  · intro hv
    unfold reuseGetToken
    rw [if_neg (by simp [hv])]
    refine ⟨?_, ?_, ?_⟩
    · cases tsToken env <;> rfl
    · intro t ht
      rw [ht]
    · intro e he
      rw [he]

/-- Claim C3, witness: a valid held token (zero expiry, non-empty) is
returned unchanged with no fetch; an invalid one (empty access token)
triggers exactly one fetch whose error is propagated. -/
theorem claim_C3_witness :
    reuseGetToken 100 failEnv ⟨[120], "Bearer", 0⟩ =
      ⟨.ok ⟨[120], "Bearer", 0⟩, 0, ⟨[120], "Bearer", 0⟩⟩ ∧
    reuseGetToken 100 failEnv ⟨[], "Bearer", 0⟩ =
      ⟨.error .network, 1, ⟨[], "Bearer", 0⟩⟩ := by
  constructor
  · exact (claim_C3_amended 100 failEnv ⟨[120], "Bearer", 0⟩).1 (by decide)
  · exact ((claim_C3_amended 100 failEnv ⟨[], "Bearer", 0⟩).2 (by decide)).2.2 .network (by decide)

/-- Claim C7: `New` performs the first token fetch eagerly — if it
fails, construction fails with an error wrapping the underlying cause
and no client value is produced; if construction succeeds, the client's
token source holds exactly the token of that first fetch. -/
theorem claim_C7 (env : FetchEnv) :
    (∀ e, tsToken env = .error e → New env = .error (.authError e)) ∧
    (∀ c, New env = .ok c → tsToken env = .ok c.ts.held) := by
  constructor
  · intro e he
    simp only [New, newTokenSource, he]
  · intro c hc
    unfold New newTokenSource at hc
    cases htk : tsToken env with
    | error e =>
      rw [htk] at hc
      exact Except.noConfusion hc
    | ok t =>
      rw [htk] at hc
      cases hc
      rfl

/-- Claim C7, witness: construction fails with the wrapped network
error on the failing environment, and on the successful environment the
constructed client holds the fetched token. -/
theorem claim_C7_witness :
    New failEnv = .error (.authError .network) ∧
    tsToken okFetchEnv = .ok ⟨[116, 111, 107], "Bearer", 1234⟩ := by
  constructor
  · exact (claim_C7 failEnv).1 .network (by decide)
  · exact (claim_C7 okFetchEnv).2 ⟨⟨⟨[116, 111, 107], "Bearer", 1234⟩⟩⟩ (by decide)

/-! ## Claims about the key loader -/

/-- Claim C6: `LoadPrivateKey` fails when the bytes do not parse as
PKCS8, rejects PKCS8 keys that are not RSA (both curve and EdDSA
keys), and succeeds exactly on RSA keys; `LoadPrivateKeyFromFile`
fails on a read error, fails on bad base64, and otherwise delegates the
decoded bytes to `LoadPrivateKey`. -/
theorem claim_C6 (parsePKCS8 : List Nat → Option ParsedPKCS8Key) (dat : List Nat)
    (readFileResult : Option String) :
    (parsePKCS8 dat = none → LoadPrivateKey parsePKCS8 dat = .error .notPKCS8) ∧
    (parsePKCS8 dat = some .ecdsa → LoadPrivateKey parsePKCS8 dat = .error .notRSA) ∧
    (parsePKCS8 dat = some .ed25519 → LoadPrivateKey parsePKCS8 dat = .error .notRSA) ∧
    (∀ k, parsePKCS8 dat = some (.rsa k) → LoadPrivateKey parsePKCS8 dat = .ok k) ∧
    (readFileResult = none →
      LoadPrivateKeyFromFile readFileResult parsePKCS8 = .error .ioRead) ∧
    (∀ s, readFileResult = some s → base64StdDecode s = none →
      LoadPrivateKeyFromFile readFileResult parsePKCS8 = .error .badBase64) ∧
    (∀ s der, readFileResult = some s → base64StdDecode s = some der →
      LoadPrivateKeyFromFile readFileResult parsePKCS8 = LoadPrivateKey parsePKCS8 der) := by
  refine ⟨?_, ?_, ?_, ?_, ?_, ?_, ?_⟩ <;> intros <;>
    simp only [LoadPrivateKey, LoadPrivateKeyFromFile, *]

/-- A concrete stand-in for `x509.ParsePKCS8PrivateKey`, recognising
one RSA blob and one non-RSA blob. -/
def pkcsOracle : List Nat → Option ParsedPKCS8Key := fun dat =>
  if dat = [48, 130] then some (.rsa ⟨7⟩)
  else if dat = [48, 131] then some .ecdsa
  else none

/-- Claim C6, witness: every branch of the key loader at concrete
inputs (`MIJ=` base64-decodes to the recognised RSA blob `[48, 130]`). -/
theorem claim_C6_witness :
    LoadPrivateKey pkcsOracle [48, 130] = .ok ⟨7⟩ ∧
    LoadPrivateKey pkcsOracle [48, 131] = .error .notRSA ∧
    LoadPrivateKey pkcsOracle [] = .error .notPKCS8 ∧
    LoadPrivateKeyFromFile none pkcsOracle = .error .ioRead ∧
    LoadPrivateKeyFromFile (some ("!!!")) pkcsOracle = .error .badBase64 ∧
    LoadPrivateKeyFromFile (some ("MIJ=")) pkcsOracle = LoadPrivateKey pkcsOracle [48, 130] :=
  ⟨(claim_C6 pkcsOracle [48, 130] none).2.2.2.1 ⟨7⟩ (by decide),
    (claim_C6 pkcsOracle [48, 131] none).2.1 (by decide),
    (claim_C6 pkcsOracle [] none).1 (by decide),
    (claim_C6 pkcsOracle [] none).2.2.2.2.1 rfl,
    (claim_C6 pkcsOracle [] (some ("!!!"))).2.2.2.2.2.1 ("!!!") rfl (by decide),
    (claim_C6 pkcsOracle [] (some ("MIJ="))).2.2.2.2.2.2 ("MIJ=") [48, 130] rfl (by decide)⟩

/-! ## Claims about the client operations -/

/-- Claim C8: each present `Transactions` filter becomes exactly one
query parameter with the right key and serialisation (`strconv.Itoa`
for the account number, `Date.String` for the range bounds), each
absent filter contributes none, and the concrete all-three-filters call
produces exactly the three expected parameters. -/
theorem claim_C8 (o : ListTransactionsOpts) :
    countKey (transactionsQueryValues o) ("f_accountnumber") =
      (if o.accountNumber.isSome then 1 else 0) ∧
    countKey (transactionsQueryValues o) ("f_rangestart") =
      (if o.rangeStart.isSome then 1 else 0) ∧
    countKey (transactionsQueryValues o) ("f_rangeend") =
      (if o.rangeEnd.isSome then 1 else 0) ∧
    (∀ n, o.accountNumber = some n →
      ("f_accountnumber", goItoa n) ∈ transactionsQueryValues o) ∧
    (∀ d, o.rangeStart = some d →
      ("f_rangestart", formatDate d) ∈ transactionsQueryValues o) ∧
    (∀ d, o.rangeEnd = some d →
      ("f_rangeend", formatDate d) ∈ transactionsQueryValues o) ∧
    transactionsQueryValues (resolveTransactionOpts
        [WithAccountNumber 42, WithRangeStart 2020 1 1, WithRangeEnd 2020 1 31]) =
      [("f_accountnumber", ("42")), ("f_rangestart", ("2020-01-01")),
        ("f_rangeend", ("2020-01-31"))] := by
  obtain ⟨an, rs, re⟩ := o
  refine ⟨?_, ?_, ?_, ?_, ?_, ?_, by decide⟩
  · rcases an with _ | n <;> rcases rs with _ | d1 <;> rcases re with _ | d2 <;> rfl
  · rcases an with _ | n <;> rcases rs with _ | d1 <;> rcases re with _ | d2 <;> rfl
  · rcases an with _ | n <;> rcases rs with _ | d1 <;> rcases re with _ | d2 <;> rfl
  · intro n hn
    rcases an with _ | n0
    · exact Option.noConfusion hn
    · cases hn
      rcases rs with _ | d1 <;> rcases re with _ | d2 <;> simp [transactionsQueryValues]
  · intro d hd
    rcases rs with _ | d1
    · exact Option.noConfusion hd
    · cases hd
      rcases an with _ | n <;> rcases re with _ | d2 <;> simp [transactionsQueryValues]
  · intro d hd
    rcases re with _ | d2
    · exact Option.noConfusion hd
    · cases hd
      rcases an with _ | n <;> rcases rs with _ | d1 <;> simp [transactionsQueryValues]

/-- Claim C8, witness: the parameter counts on the opts struct with
only the account filter present. -/
theorem claim_C8_witness :
    countKey (transactionsQueryValues ⟨some 42, none, none⟩) ("f_accountnumber") = 1 ∧
    countKey (transactionsQueryValues ⟨some 42, none, none⟩) ("f_rangestart") = 0 ∧
    ("f_accountnumber", goItoa 42) ∈ transactionsQueryValues ⟨some 42, none, none⟩ := by
  have h := claim_C8 ⟨some 42, none, none⟩
  exact ⟨h.1, h.2.1, h.2.2.2.1 42 rfl⟩

/-- Claim C10: the client operations never inspect the envelope's
`version` or `status`: whenever the body decodes as an envelope, the
operation returns the envelope's data payload as a success, for every
status value (so a vendor error signalled only through `status` comes
back as ordinary data, not as an error). -/
theorem claim_C10 (body : String)
    (p1 : String → Option GetTransactionResponse) (r1 : GetTransactionResponse)
    (p2 : String → Option ListAccountsResponse) (r2 : ListAccountsResponse)
    (p3 : String → Option ListTransactionsResponse) (r3 : ListTransactionsResponse)
    (h1 : p1 body = some r1) (h2 : p2 body = some r2) (h3 : p3 body = some r3) :
    clientTransaction (some body) p1 = .ok r1.data.transaction ∧
    clientAccounts (some body) p2 = .ok r2.data.accounts ∧
    clientTransactions (some body) p3 = .ok r3.data.transactions := by
  refine ⟨?_, ?_, ?_⟩
  · simp only [clientTransaction, h1]
  · simp only [clientAccounts, h2]
  · simp only [clientTransactions, h3]

/-- The zero-valued transaction, as decoded from an envelope whose
`data` is absent or empty. -/
def emptyTransaction : Transaction := ⟨0, "", ⟨0, 0, 0⟩, 0, 0, ⟨0⟩, false, []⟩

/-- Claim C10, witness: envelopes with failure status 500 still come
back as successful zero-valued data from all three operations. -/
theorem claim_C10_witness :
    clientTransaction (some ("body")) (fun _ => some ⟨"v1", 500, ⟨emptyTransaction⟩⟩) =
      .ok emptyTransaction ∧
    clientAccounts (some ("body")) (fun _ => some ⟨"v1", 500, ⟨[]⟩⟩) = .ok [] ∧
    clientTransactions (some ("body")) (fun _ => some ⟨"v1", 500, ⟨[]⟩⟩) = .ok [] :=
  claim_C10 ("body") (fun _ => some ⟨"v1", 500, ⟨emptyTransaction⟩⟩) ⟨"v1", 500, ⟨emptyTransaction⟩⟩
    (fun _ => some ⟨"v1", 500, ⟨[]⟩⟩) ⟨"v1", 500, ⟨[]⟩⟩
    (fun _ => some ⟨"v1", 500, ⟨[]⟩⟩) ⟨"v1", 500, ⟨[]⟩⟩ rfl rfl rfl
